import Mathlib

/-!
# Verification of the frame-skipping Pong decision agent

Shallow embedding of `src/Day04/add_FrameSkip.py` (class `PongAgent`).

Modelling choices:
* Python exceptions are modelled with `Except`: `get_action` returns the
  error (if any) alongside the post-call agent state, since a Python object
  keeps its mutated fields even when an exception propagates out of a method.
* The TFLite backend (`interpreter.set_tensor` / `invoke` / `get_tensor`) is an
  external collaborator; it is modelled as an opaque fallible function
  `infer : StateVector → Except Unit ScoreVector`.  A failure of any of the
  backend calls on an inference tick surfaces as `PyError.inferenceFailed`.
* Floating-point scores are modelled as rationals (`ℚ`); the decision logic
  only compares scores (`np.argmax`), so only their ordering matters.
* Python integers: `frame_skip` is an arbitrary `Int` (the constructor accepts
  any integer); `frame_count` and `last_action` are `Nat` since the code only
  ever assigns them non-negative values (`0`, increments, and argmax indices;
  the initial action `1` = STAY).  Python's `%` on integers agrees with
  `Int.fmod` (sign of the divisor) and raises `ZeroDivisionError` on a zero
  divisor, which is modelled by the explicit zero test in `get_action`.
* To observe backend invocations (for the skip-cadence property), `get_action`
  additionally returns the list of arguments it passed to `infer` during the
  call: `[state]` when the backend was consulted, `[]` otherwise.
-/

namespace FrameSkipPong

/-- A state observation: `[ball_x, ball_y, paddle_x, ball_dx, ball_dy]`. -/
abbrev StateVector := List ℚ

/-- A vector of per-action scores produced by the model backend. -/
abbrev ScoreVector := List ℚ

/-- The model backend capability: `infer(state) -> scores`, which may fail. -/
abbrev Backend := StateVector → Except Unit ScoreVector

/-- Errors that can escape `get_action` (Python exceptions). -/
inductive PyError where
  /-- `ZeroDivisionError` from `frame_count % frame_skip` with `frame_skip = 0`. -/
  | zeroDivision
  /-- Any exception raised by the TFLite backend calls on an inference tick. -/
  | inferenceFailed
  /-- `ValueError` from `np.argmax` on an empty score vector. -/
  | emptyScores
  deriving DecidableEq

/-- The mutable fields of a `PongAgent` instance that belong to the core
(`src/Day04/add_FrameSkip.py`, lines 30-32).  The TFLite interpreter object
itself is the external backend and is passed separately to `get_action`. -/
structure AgentState where
  frame_skip : Int
  frame_count : Nat
  last_action : Nat
  deriving DecidableEq

/-- `PongAgent.__init__` (lines 13-35), core part: it stores `frame_skip`
unchecked and initialises `frame_count = 0` and `last_action = 1` (STAY).
The constructor body contains no validation of `frame_skip`; the only
fallible statements are the TFLite interpreter set-up (lines 20-27), an
external-collaborator concern that does not depend on `frame_skip`. -/
def PongAgent.init (frame_skip : Int) : AgentState :=
  { frame_skip := frame_skip, frame_count := 0, last_action := 1 }

/-- The running maximum of `np.argmax`: scan the remaining scores, carrying
the index `acc.1` and value `acc.2` of the best score seen so far; a later
score replaces the carried one only when strictly greater, so the first
occurrence of the maximum wins. `i` is the absolute index of the head. -/
def argmaxAux : List ℚ → Nat → Nat × ℚ → Nat × ℚ
  | [], _, acc => acc
  | x :: xs, i, acc =>
    if acc.2 < x then argmaxAux xs (i + 1) (i, x) else argmaxAux xs (i + 1) acc

/-- `np.argmax` on a vector: the index of the first occurrence of the maximum
value; `none` on an empty vector (where NumPy raises `ValueError`). -/
def np_argmax (l : List ℚ) : Option Nat :=
  match l with
  | [] => none
  | x :: xs => some (argmaxAux xs 1 (0, x)).1

/-- `PongAgent.get_action` (lines 37-68):
1. `self.frame_count += 1`;
2. if `self.frame_count % self.frame_skip == 0` (a `ZeroDivisionError` when
   `frame_skip = 0`), run the backend on `state` and set
   `self.last_action = np.argmax(output[0])`;
3. return `self.last_action`.
The result is `(returned action or escaped exception, agent state after the
call, arguments passed to the backend during the call)`. -/
def get_action (infer : Backend) (a : AgentState) (state : StateVector) :
    Except PyError Nat × AgentState × List StateVector :=
  let a1 : AgentState := { a with frame_count := a.frame_count + 1 }
  if a1.frame_skip = 0 then
    (Except.error PyError.zeroDivision, a1, [])
  else if Int.fmod (a1.frame_count : Int) a1.frame_skip = 0 then
    match infer state with
    | Except.error _ => (Except.error PyError.inferenceFailed, a1, [state])
    | Except.ok scores =>
      match np_argmax scores with
      | none => (Except.error PyError.emptyScores, a1, [state])
      | some i => (Except.ok i, { a1 with last_action := i }, [state])
  else
    (Except.ok a1.last_action, a1, [])

/-- Run the agent through a sequence of ticks, one `get_action` call per
state observation.  Produces the per-tick list of
`(result, backend arguments of that tick)` and the final agent state. -/
def runAgent (infer : Backend) : AgentState → List StateVector →
    List (Except PyError Nat × List StateVector) × AgentState
  | a, [] => ([], a)
  | a, st :: rest =>
    let r := get_action infer a st
    let t := runAgent infer r.2.1 rest
    ((r.1, r.2.2) :: t.1, t.2)

/-- The cache update performed by one observed tick: a tick that consulted
the backend (non-empty argument list) and returned an action installs that
action; every other tick leaves the cached action unchanged. -/
def updOne (p : Except PyError Nat × List StateVector) (d : Nat) : Nat :=
  match p with
  | (Except.ok i, _ :: _) => i
  | _ => d

/-- The action of the most recent successful inference tick in an observed
trace, or the default `d` if there is none. -/
def lastInfAction : List (Except PyError Nat × List StateVector) → Nat → Nat
  | [], d => d
  | p :: rest, d => lastInfAction rest (updOne p d)

/-! ## Basic step and run lemmas -/

/-- For a positive divisor cast from `Nat`, Python's modulo test
`n % k == 0` is divisibility. -/
lemma fmod_natCast_eq_zero_iff (n k : Nat) :
    Int.fmod (n : Int) (k : Int) = 0 ↔ k ∣ n := by
  rw [Int.fmod_eq_emod _ (by positivity : (0 : Int) ≤ (k : Int))]
  constructor
  · intro h
    exact Int.natCast_dvd_natCast.mp (Int.dvd_of_emod_eq_zero h)
  · intro h
    exact Int.emod_eq_zero_of_dvd (Int.natCast_dvd_natCast.mpr h)

/-- Python's modulo of a multiple of the (possibly negative) divisor is `0`. -/
lemma fmod_eq_zero_of_dvd {a b : Int} (h : b ∣ a) : Int.fmod a b = 0 := by
  rcases h with ⟨c, rfl⟩
  exact Int.mul_fmod_right b c

/-- Every `get_action` call increments `frame_count` by exactly one,
whatever branch is taken. -/
lemma get_action_frame_count (infer : Backend) (a : AgentState)
    (st : StateVector) :
    (get_action infer a st).2.1.frame_count = a.frame_count + 1 := by
  unfold get_action
  dsimp only
  split
  · rfl
  · split
    · split
      · rfl
      · split <;> rfl
    · rfl

/-- No `get_action` branch modifies `frame_skip`. -/
lemma get_action_frame_skip (infer : Backend) (a : AgentState)
    (st : StateVector) :
    (get_action infer a st).2.1.frame_skip = a.frame_skip := by
  unfold get_action
  dsimp only
  split
  · rfl
  · split
    · split
      · rfl
      · split <;> rfl
    · rfl

/-- A non-inference tick: with a positive skip not dividing the new
`frame_count`, the call returns the cached action, consults nothing, and
only bumps the counter. -/
lemma get_action_skip (infer : Backend) (a : AgentState) (st : StateVector)
    (k : Nat) (hfs : a.frame_skip = (k : Int)) (hk : 0 < k)
    (hnd : ¬ k ∣ (a.frame_count + 1)) :
    get_action infer a st =
      (Except.ok a.last_action,
       { a with frame_count := a.frame_count + 1 }, []) := by
  unfold get_action
  dsimp only
  rw [if_neg, if_neg]
  · rw [hfs, fmod_natCast_eq_zero_iff]
    exact hnd
  · rw [hfs]
    exact_mod_cast Nat.pos_iff_ne_zero.mp hk

/-- An inference tick whose backend call fails: the error is surfaced and
`last_action` is not touched. -/
lemma get_action_fail (infer : Backend) (a : AgentState) (st : StateVector)
    (e : Unit) (hd : a.frame_skip ∣ ((a.frame_count + 1 : Nat) : Int))
    (herr : infer st = Except.error e) :
    get_action infer a st =
      (Except.error PyError.inferenceFailed,
       { a with frame_count := a.frame_count + 1 }, [st]) := by
  have hk0 : a.frame_skip ≠ 0 := by
    intro h0
    rw [h0] at hd
    exact Nat.succ_ne_zero a.frame_count (by exact_mod_cast zero_dvd_iff.mp hd)
  unfold get_action
  dsimp only
  rw [if_neg hk0, if_pos (fmod_eq_zero_of_dvd hd), herr]

/-- An inference tick whose backend call succeeds with a non-empty score
vector: the argmax is installed as the new cached action and returned. -/
lemma get_action_infer (infer : Backend) (a : AgentState) (st : StateVector)
    (scores : ScoreVector) (i : Nat)
    (hd : a.frame_skip ∣ ((a.frame_count + 1 : Nat) : Int))
    (hok : infer st = Except.ok scores) (hmax : np_argmax scores = some i) :
    get_action infer a st =
      (Except.ok i,
       { a with frame_count := a.frame_count + 1, last_action := i },
       [st]) := by
  have hk0 : a.frame_skip ≠ 0 := by
    intro h0
    rw [h0] at hd
    exact Nat.succ_ne_zero a.frame_count (by exact_mod_cast zero_dvd_iff.mp hd)
  unfold get_action
  dsimp only
  rw [if_neg hk0, if_pos (fmod_eq_zero_of_dvd hd), hok]
  simp only [hmax]

/-- The observed cache update of one call agrees with the `last_action`
field of the state the call leaves behind. -/
lemma updOne_get_action (infer : Backend) (a : AgentState) (st : StateVector) :
    updOne ((get_action infer a st).1, (get_action infer a st).2.2)
        a.last_action
      = (get_action infer a st).2.1.last_action := by
  unfold get_action
  dsimp only
  split
  · rfl
  · split
    · split
      · rfl
      · split <;> rfl
    · rfl

lemma runAgent_nil (infer : Backend) (a : AgentState) :
    runAgent infer a [] = ([], a) := rfl

lemma runAgent_cons (infer : Backend) (a : AgentState) (st : StateVector)
    (rest : List StateVector) :
    runAgent infer a (st :: rest) =
      (((get_action infer a st).1, (get_action infer a st).2.2) ::
         (runAgent infer (get_action infer a st).2.1 rest).1,
       (runAgent infer (get_action infer a st).2.1 rest).2) := rfl

/-- One tick result per state observation. -/
lemma runAgent_length (infer : Backend) (states : List StateVector) :
    ∀ a : AgentState, (runAgent infer a states).1.length = states.length := by
  induction states with
  | nil => intro a; rfl
  | cons st rest ih =>
    intro a
    rw [runAgent_cons]
    simp only [List.length_cons, ih]

/-- A run never changes `frame_skip`. -/
lemma runAgent_frame_skip (infer : Backend) (states : List StateVector) :
    ∀ a : AgentState, (runAgent infer a states).2.frame_skip = a.frame_skip := by
  induction states with
  | nil => intro a; rfl
  | cons st rest ih =>
    intro a
    rw [runAgent_cons]
    dsimp only
    rw [ih, get_action_frame_skip]

/-- A run advances `frame_count` by exactly the number of ticks. -/
lemma runAgent_frame_count (infer : Backend) (states : List StateVector) :
    ∀ a : AgentState,
      (runAgent infer a states).2.frame_count
        = a.frame_count + states.length := by
  induction states with
  | nil => intro a; rfl
  | cons st rest ih =>
    intro a
    rw [runAgent_cons]
    dsimp only
    rw [ih, get_action_frame_count, List.length_cons]
    omega

/-- The cached action left by a run is the action of the most recent
successful inference tick of its observed trace (default: the action cached
when the run started). -/
lemma runAgent_lastInfAction (infer : Backend) (states : List StateVector) :
    ∀ a : AgentState,
      lastInfAction (runAgent infer a states).1 a.last_action
        = (runAgent infer a states).2.last_action := by
  induction states with
  | nil => intro a; rfl
  | cons st rest ih =>
    intro a
    rw [runAgent_cons]
    dsimp only [lastInfAction]
    rw [updOne_get_action, ih]

/-- With a positive skip `k`, one call passes exactly one argument to the
backend when the incremented counter is a multiple of `k`, and none
otherwise — whether or not the backend call succeeds. -/
lemma get_action_calls_length (infer : Backend) (a : AgentState)
    (st : StateVector) (k : Nat) (hfs : a.frame_skip = (k : Int))
    (hk : 0 < k) :
    (get_action infer a st).2.2.length
      = if k ∣ (a.frame_count + 1) then 1 else 0 := by
  have hknz : ((k : Int)) ≠ 0 := by exact_mod_cast Nat.pos_iff_ne_zero.mp hk
  unfold get_action
  dsimp only
  rw [hfs, if_neg hknz]
  by_cases hd : k ∣ (a.frame_count + 1)
  · rw [if_pos ((fmod_natCast_eq_zero_iff _ _).mpr hd), if_pos hd]
    split
    · rfl
    · split <;> rfl
  · rw [if_neg fun h => hd ((fmod_natCast_eq_zero_iff _ _).mp h), if_neg hd]
    rfl

/-- Tick-by-tick backend-invocation counts of a run: tick `i` (0-indexed)
passes one argument to the backend exactly when `frame_count` at that tick,
`a.frame_count + i + 1`, is a multiple of the skip. -/
lemma runAgent_calls_map (infer : Backend) (k : Nat) (hk : 0 < k) :
    ∀ (states : List StateVector) (a : AgentState),
      a.frame_skip = (k : Int) →
      (runAgent infer a states).1.map (fun p => p.2.length)
        = (List.range states.length).map
            (fun i => if k ∣ (a.frame_count + i + 1) then 1 else 0) := by
  intro states
  induction states with
  | nil => intro a hfs; rfl
  | cons st rest ih =>
    intro a hfs
    rw [runAgent_cons]
    dsimp only
    rw [List.map_cons, List.length_cons, List.range_succ_eq_map,
      List.map_cons, List.map_map]
    have hhead :
        (get_action infer a st).2.2.length
          = if k ∣ (a.frame_count + 0 + 1) then 1 else 0 := by
      rw [get_action_calls_length infer a st k hfs hk, Nat.add_zero]
    rw [hhead]
    have htail := ih (get_action infer a st).2.1
      (by rw [get_action_frame_skip, hfs])
    rw [htail]
    have hfun :
        ((fun i => if k ∣ (a.frame_count + i + 1) then 1 else 0) ∘ Nat.succ)
          = fun i =>
              if k ∣ ((get_action infer a st).2.1.frame_count + i + 1)
              then 1 else 0 := by
      funext i
      rw [Function.comp_apply, get_action_frame_count]
      have harg : a.frame_count + Nat.succ i + 1
          = a.frame_count + 1 + i + 1 := by omega
      rw [harg]
    rw [hfun]

/-- Total backend invocations of a run, in terms of counter division:
invocations `+ frame_count / k` before `= frame_count / k` after. -/
lemma runAgent_calls_sum (infer : Backend) (k : Nat) (hk : 0 < k) :
    ∀ (states : List StateVector) (a : AgentState),
      a.frame_skip = (k : Int) →
      ((runAgent infer a states).1.map (fun p => p.2.length)).sum
          + a.frame_count / k
        = (a.frame_count + states.length) / k := by
  intro states
  induction states with
  | nil =>
    intro a hfs
    rw [runAgent_nil]
    simp
  | cons st rest ih =>
    intro a hfs
    rw [runAgent_cons]
    dsimp only
    rw [List.map_cons, List.sum_cons,
      get_action_calls_length infer a st k hfs hk]
    have hIH := ih (get_action infer a st).2.1
      (by rw [get_action_frame_skip, hfs])
    rw [get_action_frame_count] at hIH
    have hsucc := Nat.succ_div a.frame_count k
    rw [List.length_cons]
    have harg : a.frame_count + (rest.length + 1)
        = a.frame_count + 1 + rest.length := by omega
    rw [harg, ← hIH, hsucc]
    generalize (if k ∣ a.frame_count + 1 then 1 else 0) = b
    omega

/-- C1: for every `frame_skip = k ≥ 1` and every sequence of `N` decision
calls on a freshly constructed agent, the backend is invoked exactly on the
calls whose 1-indexed tick count is a multiple of `k` (once per such call,
never otherwise — the per-tick invocation counts are the indicator of
divisibility), and the total number of invocations is `⌊N / k⌋`; with
`k = 1` the indicator is constantly `1`, so every call invokes the backend
exactly once. -/
theorem claim_C1_skip_cadence (k : Nat) (hk : 1 ≤ k) (infer : Backend)
    (states : List StateVector) :
    (runAgent infer (PongAgent.init (k : Int)) states).1.map
        (fun p => p.2.length)
      = (List.range states.length).map
          (fun i => if k ∣ (i + 1) then 1 else 0)
    ∧ ((runAgent infer (PongAgent.init (k : Int)) states).1.map
        (fun p => p.2.length)).sum = states.length / k := by
  constructor
  · rw [runAgent_calls_map infer k hk states (PongAgent.init (k : Int)) rfl]
    simp [PongAgent.init]
  · have h := runAgent_calls_sum infer k hk states (PongAgent.init (k : Int))
      rfl
    simpa [PongAgent.init] using h

/-- Witness for C1: skip `2` over five ticks gives invocation pattern
`[0, 1, 0, 1, 0]` and `⌊5 / 2⌋ = 2` invocations in total. -/
theorem claim_C1_witness :
    1 ≤ 2 ∧
      ((runAgent (fun _ => Except.ok [0, 1, 0]) (PongAgent.init ((2 : Nat) : Int))
            [[0], [0], [0], [0], [0]]).1.map (fun p => p.2.length)
          = (List.range ([[(0 : ℚ)], [0], [0], [0], [0]] : List StateVector).length).map
              (fun i => if 2 ∣ (i + 1) then 1 else 0)
        ∧ ((runAgent (fun _ => Except.ok [0, 1, 0]) (PongAgent.init ((2 : Nat) : Int))
            [[0], [0], [0], [0], [0]]).1.map (fun p => p.2.length)).sum
          = ([[(0 : ℚ)], [0], [0], [0], [0]] : List StateVector).length / 2) :=
  ⟨by decide, claim_C1_skip_cadence 2 (by decide) _ _⟩

/-- Every tick strictly before the first inference boundary returns the
action cached when the run started. -/
lemma runAgent_prefix_stay (infer : Backend) (k : Nat) (hk : 0 < k) :
    ∀ (states : List StateVector) (a : AgentState),
      a.frame_skip = (k : Int) →
      ∀ (i : Nat) (p : Except PyError Nat × List StateVector),
        (runAgent infer a states).1.get? i = some p →
        a.frame_count + i + 1 < k →
        p.1 = Except.ok a.last_action := by
  intro states
  induction states with
  | nil =>
    intro a hfs i p hget hlt
    rw [runAgent_nil] at hget
    exact absurd hget (by simp)
  | cons st rest ih =>
    intro a hfs i p hget hlt
    have hstep := get_action_skip infer a st k hfs hk
      (Nat.not_dvd_of_pos_of_lt (Nat.succ_pos _) (by omega))
    rw [runAgent_cons] at hget
    dsimp only at hget
    match i with
    | 0 =>
      rw [List.get?_cons_zero] at hget
      have hp := Option.some.inj hget
      rw [← hp, hstep]
    | j + 1 =>
      rw [List.get?_cons_succ] at hget
      have hlast : (get_action infer a st).2.1.last_action
          = a.last_action := by
        rw [hstep]
      rw [← hlast]
      refine ih (get_action infer a st).2.1
        (by rw [get_action_frame_skip, hfs]) j p hget ?_
      rw [get_action_frame_count]
      omega

/-- Cache-reuse invariant of a whole run: every non-inference tick returns
the action of the most recent prior successful inference tick of the trace,
with the starting cached action as default. -/
lemma runAgent_cache (infer : Backend) (k : Nat) (hk : 0 < k) :
    ∀ (states : List StateVector) (a : AgentState),
      a.frame_skip = (k : Int) →
      ∀ (i : Nat) (p : Except PyError Nat × List StateVector),
        (runAgent infer a states).1.get? i = some p →
        ¬ k ∣ (a.frame_count + i + 1) →
        p.1 = Except.ok
            (lastInfAction ((runAgent infer a states).1.take i)
              a.last_action) := by
  intro states
  induction states with
  | nil =>
    intro a hfs i p hget hnd
    rw [runAgent_nil] at hget
    exact absurd hget (by simp)
  | cons st rest ih =>
    intro a hfs i p hget hnd
    rw [runAgent_cons] at hget
    dsimp only at hget
    match i with
    | 0 =>
      have hnd0 : ¬ k ∣ (a.frame_count + 1) := by
        rw [show a.frame_count + 1 = a.frame_count + 0 + 1 by omega]
        exact hnd
      rw [List.get?_cons_zero] at hget
      have hp := Option.some.inj hget
      rw [← hp, List.take_zero]
      dsimp only [lastInfAction]
      rw [get_action_skip infer a st k hfs hk hnd0]
    | j + 1 =>
      rw [List.get?_cons_succ] at hget
      rw [runAgent_cons]
      dsimp only
      rw [List.take_succ_cons]
      dsimp only [lastInfAction]
      rw [updOne_get_action]
      refine ih (get_action infer a st).2.1
        (by rw [get_action_frame_skip, hfs]) j p hget ?_
      rw [get_action_frame_count]
      intro hdvd
      refine hnd ?_
      rw [show a.frame_count + (j + 1) + 1
          = a.frame_count + 1 + j + 1 by omega]
      exact hdvd

/-- C3: for every decision call at a non-inference tick (1-indexed tick
count `i + 1` not a multiple of the skip), the returned action is exactly
the action of the most recent prior successful inference tick of the trace
(`lastInfAction`), or STAY (`1`) if no inference tick has yet succeeded
since construction. -/
theorem claim_C3_cache_reuse (k : Nat) (hk : 1 ≤ k) (infer : Backend)
    (states : List StateVector) :
    ∀ (i : Nat) (p : Except PyError Nat × List StateVector),
      (runAgent infer (PongAgent.init (k : Int)) states).1.get? i = some p →
      ¬ k ∣ (i + 1) →
      p.1 = Except.ok
          (lastInfAction
            ((runAgent infer (PongAgent.init (k : Int)) states).1.take i)
            1) := by
  intro i p hget hnd
  have h := runAgent_cache infer k hk states (PongAgent.init (k : Int)) rfl
    i p hget (by simpa [PongAgent.init] using hnd)
  simpa [PongAgent.init] using h

/-- Witness for C3: skip `4`, two ticks, both non-inference; each returns
the default STAY. -/
theorem claim_C3_witness :
    1 ≤ 4 ∧
      (∀ (i : Nat) (p : Except PyError Nat × List StateVector),
        (runAgent (fun _ => Except.ok [0, 1, 0])
            (PongAgent.init ((4 : Nat) : Int)) [[9], [9]]).1.get? i = some p →
        ¬ 4 ∣ (i + 1) →
        p.1 = Except.ok
            (lastInfAction
              ((runAgent (fun _ => Except.ok [0, 1, 0])
                  (PongAgent.init ((4 : Nat) : Int)) [[9], [9]]).1.take i)
              1)) :=
  ⟨by decide, claim_C3_cache_reuse 4 (by decide) _ _⟩

/-- C4: if the backend fails on an inference tick, the call surfaces the
inference error (no action is returned), `last_action` is unchanged, and
`frame_count` has still been incremented by one. -/
theorem claim_C4_failure_preserves_cache (infer : Backend) (a : AgentState)
    (st : StateVector) (e : Unit)
    (hd : a.frame_skip ∣ ((a.frame_count + 1 : Nat) : Int))
    (herr : infer st = Except.error e) :
    (get_action infer a st).1 = Except.error PyError.inferenceFailed
    ∧ (get_action infer a st).2.1.last_action = a.last_action
    ∧ (get_action infer a st).2.1.frame_count = a.frame_count + 1 := by
  rw [get_action_fail infer a st e hd herr]
  exact ⟨rfl, rfl, rfl⟩

/-- Witness for C4: skip `1`, first tick (an inference tick), failing
backend; the cached STAY survives. -/
theorem claim_C4_witness :
    ((PongAgent.init 1).frame_skip
        ∣ (((PongAgent.init 1).frame_count + 1 : Nat) : Int))
    ∧ ((fun _ => (Except.error () : Except Unit ScoreVector)) ([0] : StateVector)
        = Except.error ())
    ∧ ((get_action (fun _ => Except.error ()) (PongAgent.init 1) [0]).1
          = Except.error PyError.inferenceFailed
      ∧ (get_action (fun _ => Except.error ()) (PongAgent.init 1) [0]).2.1.last_action
          = (PongAgent.init 1).last_action
      ∧ (get_action (fun _ => Except.error ()) (PongAgent.init 1) [0]).2.1.frame_count
          = (PongAgent.init 1).frame_count + 1) :=
  ⟨by decide, rfl,
    claim_C4_failure_preserves_cache (fun _ => Except.error ())
      (PongAgent.init 1) [0] () (by decide) rfl⟩

/-- C5: cold start.  Generally: for any skip `k ≥ 1`, every tick whose
1-indexed count `i + 1` is still below the first inference boundary `k`
returns the default STAY action `1`.  Concretely, with `frame_skip = 4`
ticks 1-3 return STAY without passing anything to the backend, and tick 4
returns `argmax` of the backend's scores for the tick-4 state, with the
tick-4 state as the only backend argument of the whole run. -/
theorem claim_C5_cold_start :
    (∀ (k : Nat), 1 ≤ k → ∀ (infer : Backend) (states : List StateVector)
        (i : Nat) (p : Except PyError Nat × List StateVector),
        (runAgent infer (PongAgent.init (k : Int)) states).1.get? i = some p →
        i + 1 < k → p.1 = Except.ok 1)
    ∧ (∀ (infer : Backend) (st1 st2 st3 st4 : StateVector)
        (scores : ScoreVector) (i : Nat),
        infer st4 = Except.ok scores → np_argmax scores = some i →
        (runAgent infer (PongAgent.init 4) [st1, st2, st3, st4]).1 =
          [(Except.ok 1, []), (Except.ok 1, []), (Except.ok 1, []),
           (Except.ok i, [st4])]) := by
  constructor
  · intro k hk infer states i p hget hlt
    exact runAgent_prefix_stay infer k hk states (PongAgent.init (k : Int))
      rfl i p hget (by simpa [PongAgent.init] using hlt)
  · intro infer st1 st2 st3 st4 scores i hok hmax
    have e1 : get_action infer (PongAgent.init 4) st1
        = (Except.ok 1,
           ({ frame_skip := 4, frame_count := 1, last_action := 1 } :
             AgentState), []) := by
      rw [get_action_skip infer (PongAgent.init 4) st1 4 rfl (by decide)
        (by decide)]
      rfl
    have e2 : get_action infer
        ({ frame_skip := 4, frame_count := 1, last_action := 1 } : AgentState)
        st2
        = (Except.ok 1,
           ({ frame_skip := 4, frame_count := 2, last_action := 1 } :
             AgentState), []) := by
      rw [get_action_skip infer _ st2 4 rfl (by decide) (by decide)]
    have e3 : get_action infer
        ({ frame_skip := 4, frame_count := 2, last_action := 1 } : AgentState)
        st3
        = (Except.ok 1,
           ({ frame_skip := 4, frame_count := 3, last_action := 1 } :
             AgentState), []) := by
      rw [get_action_skip infer _ st3 4 rfl (by decide) (by decide)]
    have e4 : get_action infer
        ({ frame_skip := 4, frame_count := 3, last_action := 1 } : AgentState)
        st4
        = (Except.ok i,
           ({ frame_skip := 4, frame_count := 4, last_action := i } :
             AgentState), [st4]) := by
      rw [get_action_infer infer _ st4 scores i (by decide) hok hmax]
    simp only [runAgent_cons, runAgent_nil, e1, e2, e3, e4]

/-- Witness for C5: a concrete backend scoring `[3, 1, 0]` at every state;
tick 4 selects action `0`. -/
theorem claim_C5_witness :
    ((fun _ => Except.ok [(3 : ℚ), 1, 0] : Backend) ([4] : StateVector)
        = Except.ok [(3 : ℚ), 1, 0])
    ∧ np_argmax [(3 : ℚ), 1, 0] = some 0
    ∧ (runAgent (fun _ => Except.ok [(3 : ℚ), 1, 0]) (PongAgent.init 4)
          [[1], [2], [3], [4]]).1 =
        [(Except.ok 1, []), (Except.ok 1, []), (Except.ok 1, []),
         (Except.ok 0, [[4]])] :=
  ⟨rfl, by decide,
    claim_C5_cold_start.2 (fun _ => Except.ok [(3 : ℚ), 1, 0])
      [1] [2] [3] [4] [(3 : ℚ), 1, 0] 0 rfl (by decide)⟩

/-- Reading an appended singleton at the original length. -/
lemma getD_append_singleton (P : List ℚ) (x : ℚ) :
    (P ++ [x]).getD P.length 0 = x := by
  rw [List.getD_append_right P [x] 0 P.length (le_refl _), Nat.sub_self,
    List.getD_cons_zero]

/-- Invariant of the `np.argmax` scan: if the carried accumulator is the
first maximum of a processed prefix `P`, the scan of the remaining scores
`L` (starting at absolute index `P.length`) returns the first maximum of
`P ++ L`: an in-bounds index holding the value, with every score `≤` it and
every strictly earlier score `<` it. -/
lemma argmaxAux_spec :
    ∀ (L P : List ℚ) (bi : Nat) (bv : ℚ), bi < P.length →
      bv = P.getD bi 0 →
      (∀ j, j < P.length → P.getD j 0 ≤ bv) →
      (∀ j, j < bi → P.getD j 0 < bv) →
      (argmaxAux L P.length (bi, bv)).1 < (P ++ L).length ∧
      (argmaxAux L P.length (bi, bv)).2
        = (P ++ L).getD (argmaxAux L P.length (bi, bv)).1 0 ∧
      (∀ j, j < (P ++ L).length →
        (P ++ L).getD j 0 ≤ (argmaxAux L P.length (bi, bv)).2) ∧
      (∀ j, j < (argmaxAux L P.length (bi, bv)).1 →
        (P ++ L).getD j 0 < (argmaxAux L P.length (bi, bv)).2) := by
  intro L
  induction L with
  | nil =>
    intro P bi bv hbi hbv hmax hstrict
    rw [List.append_nil]
    exact ⟨hbi, hbv, hmax, hstrict⟩
  | cons x xs ih =>
    intro P bi bv hbi hbv hmax hstrict
    have hlen : (P ++ [x]).length = P.length + 1 := by simp
    have hPL : P ++ x :: xs = (P ++ [x]) ++ xs := by simp
    dsimp only [argmaxAux]
    by_cases hlt : bv < x
    · rw [if_pos hlt, hPL, ← hlen]
      refine ih (P ++ [x]) P.length x (by simp) (getD_append_singleton P x).symm
        ?_ ?_
      · intro j hj
        rw [hlen] at hj
        by_cases hjP : j < P.length
        · rw [List.getD_append _ _ _ _ hjP]
          exact le_of_lt (lt_of_le_of_lt (hmax j hjP) hlt)
        · have hje : j = P.length := by omega
          rw [hje, getD_append_singleton]
      · intro j hj
        rw [List.getD_append _ _ _ _ hj]
        exact lt_of_le_of_lt (hmax j hj) hlt
    · rw [if_neg hlt, hPL, ← hlen]
      refine ih (P ++ [x]) bi bv (by omega) ?_ ?_ ?_
      · rw [List.getD_append _ _ _ _ hbi]
        exact hbv
      · intro j hj
        rw [hlen] at hj
        by_cases hjP : j < P.length
        · rw [List.getD_append _ _ _ _ hjP]
          exact hmax j hjP
        · have hje : j = P.length := by omega
          rw [hje, getD_append_singleton]
          exact le_of_not_lt hlt
      · intro j hj
        rw [List.getD_append _ _ _ _ (lt_trans hj hbi)]
        exact hstrict j hj

/-- `np_argmax` returns the first maximum: an in-bounds index whose score
dominates every score and strictly dominates every earlier score. -/
lemma np_argmax_spec (scores : List ℚ) (i : Nat)
    (h : np_argmax scores = some i) :
    i < scores.length ∧
    (∀ j, j < scores.length → scores.getD j 0 ≤ scores.getD i 0) ∧
    (∀ j, j < i → scores.getD j 0 < scores.getD i 0) := by
  match scores with
  | [] => exact absurd h (by simp [np_argmax])
  | x :: xs =>
    have hi : i = (argmaxAux xs 1 (0, x)).1 :=
      (Option.some.inj h).symm
    have hspec := argmaxAux_spec xs [x] 0 x (by simp) rfl
      (fun j hj => by
        have hje : j = 0 := by
          simp only [List.length_singleton] at hj
          omega
        rw [hje]
        exact le_refl x)
      (fun j hj => absurd hj (Nat.not_lt_zero j))
    simp only [List.length_singleton, List.singleton_append] at hspec
    rw [hi]
    refine ⟨hspec.1, ?_, ?_⟩
    · intro j hj
      rw [← hspec.2.1]
      exact hspec.2.2.1 j hj
    · intro j hj
      rw [← hspec.2.1]
      exact hspec.2.2.2 j hj

/-- C6: on every successful inference tick the selected action is
`np_argmax` of the returned ScoreVector, and `np_argmax` breaks ties by the
first index: the returned index is in bounds, its score dominates every
score, and strictly dominates every score at a smaller index (so among tied
maxima the lowest index wins); in particular on `[0.5, 0.5, 0.3]` it
selects index `0` (LEFT), not `1`. -/
theorem claim_C6_argmax_tie_break :
    (∀ (scores : List ℚ) (i : Nat), np_argmax scores = some i →
        i < scores.length ∧
        (∀ j, j < scores.length → scores.getD j 0 ≤ scores.getD i 0) ∧
        (∀ j, j < i → scores.getD j 0 < scores.getD i 0))
    ∧ np_argmax [1 / 2, 1 / 2, 3 / 10] = some 0
    ∧ (∀ (infer : Backend) (a : AgentState) (st : StateVector)
          (scores : ScoreVector) (i : Nat),
        a.frame_skip ∣ ((a.frame_count + 1 : Nat) : Int) →
        infer st = Except.ok scores → np_argmax scores = some i →
        (get_action infer a st).1 = Except.ok i
        ∧ (get_action infer a st).2.1.last_action = i) := by
  refine ⟨np_argmax_spec, ?_, ?_⟩
  · show np_argmax [1 / 2, 1 / 2, 3 / 10] = some 0
    norm_num [np_argmax, argmaxAux]
  · intro infer a st scores i hd hok hmax
    rw [get_action_infer infer a st scores i hd hok hmax]
    exact ⟨rfl, rfl⟩

/-- Witness for C6: the tie `[0.5, 0.5, 0.3]` selects index `0`, which is
in bounds and dominates all three scores. -/
theorem claim_C6_witness :
    np_argmax [(1 : ℚ) / 2, 1 / 2, 3 / 10] = some 0 ∧
      (0 < ([(1 : ℚ) / 2, 1 / 2, 3 / 10] : List ℚ).length ∧
        (∀ j, j < ([(1 : ℚ) / 2, 1 / 2, 3 / 10] : List ℚ).length →
          ([(1 : ℚ) / 2, 1 / 2, 3 / 10] : List ℚ).getD j 0
            ≤ ([(1 : ℚ) / 2, 1 / 2, 3 / 10] : List ℚ).getD 0 0) ∧
        (∀ j, j < 0 →
          ([(1 : ℚ) / 2, 1 / 2, 3 / 10] : List ℚ).getD j 0
            < ([(1 : ℚ) / 2, 1 / 2, 3 / 10] : List ℚ).getD 0 0)) :=
  ⟨claim_C6_argmax_tie_break.2.1,
    claim_C6_argmax_tie_break.1 [(1 : ℚ) / 2, 1 / 2, 3 / 10] 0
      claim_C6_argmax_tie_break.2.1⟩

/-- C9: if the backend always returns score vectors of length 3 when it
succeeds, then `last_action ∈ {0, 1, 2}` (as a `Nat`: `< 3`) holds at
construction and is preserved by every decision call, and every decision
call that returns an action (rather than an error) returns one in
`{0, 1, 2}`. -/
theorem claim_C9_action_in_range :
    (∀ k : Int, (PongAgent.init k).last_action < 3)
    ∧ (∀ (infer : Backend) (a : AgentState) (st : StateVector),
        (∀ (s : StateVector) (scores : ScoreVector),
            infer s = Except.ok scores → scores.length = 3) →
        a.last_action < 3 →
        (get_action infer a st).2.1.last_action < 3
        ∧ (∀ act, (get_action infer a st).1 = Except.ok act → act < 3)) := by
  constructor
  · intro k
    show 1 < 3
    decide
  · intro infer a st hlen hla
    unfold get_action
    dsimp only
    split
    · exact ⟨hla, fun act hact => absurd hact (by simp)⟩
    · split
      · split
        · exact ⟨hla, fun act hact => absurd hact (by simp)⟩
        · rename_i scores hok
          split
          · exact ⟨hla, fun act hact => absurd hact (by simp)⟩
          · rename_i i hmax
            have h3 := hlen st scores hok
            have hi := (np_argmax_spec scores i hmax).1
            rw [h3] at hi
            refine ⟨hi, fun act hact => ?_⟩
            have hact' := Except.ok.inj hact
            omega
      · refine ⟨hla, fun act hact => ?_⟩
        have hact' := Except.ok.inj hact
        omega

/-- Witness for C9: a constant length-3 backend on a fresh agent with
skip 1; the first call selects action `1` (the maximal score's index). -/
theorem claim_C9_witness :
    (∀ (s : StateVector) (scores : ScoreVector),
        (fun _ => Except.ok [(1 : ℚ), 2, 0] : Backend) s = Except.ok scores →
        scores.length = 3)
    ∧ (PongAgent.init 1).last_action < 3
    ∧ ((get_action (fun _ => Except.ok [(1 : ℚ), 2, 0]) (PongAgent.init 1)
          [0]).2.1.last_action < 3
      ∧ (∀ act,
          (get_action (fun _ => Except.ok [(1 : ℚ), 2, 0]) (PongAgent.init 1)
              [0]).1 = Except.ok act → act < 3)) :=
  ⟨fun s scores h => by rw [← Except.ok.inj h]; rfl,
    by decide,
    claim_C9_action_in_range.2 (fun _ => Except.ok [(1 : ℚ), 2, 0])
      (PongAgent.init 1) [0]
      (fun s scores h => by rw [← Except.ok.inj h]; rfl) (by decide)⟩

/-! ## Claim theorems (first batch) -/

/-- C7: for every valid `frame_skip ≥ 1`, construction yields an agent with
`frame_count = 0` and `last_action = STAY` (action `1`). -/
theorem claim_C7_initial_state (k : Int) (hk : 1 ≤ k) :
    (PongAgent.init k).frame_count = 0 ∧ (PongAgent.init k).last_action = 1 :=
  ⟨rfl, rfl⟩

/-- Witness for C7 at the concrete skip `4`. -/
theorem claim_C7_witness :
    (1 : Int) ≤ 4 ∧
      ((PongAgent.init 4).frame_count = 0 ∧
        (PongAgent.init 4).last_action = 1) :=
  ⟨by decide, claim_C7_initial_state 4 (by decide)⟩

/-- C8: `frame_count` increments by exactly one on every decision call
(whatever branch is taken, including backend failure and the zero-divisor
error), and after `n` calls from construction it equals `n`; no core
operation decrements or resets it (the only operations are `PongAgent.init`
and `get_action`). -/
theorem claim_C8_frame_count_strictly_increases :
    (∀ (infer : Backend) (a : AgentState) (st : StateVector),
        (get_action infer a st).2.1.frame_count = a.frame_count + 1)
    ∧ (∀ (infer : Backend) (k : Int) (states : List StateVector),
        (runAgent infer (PongAgent.init k) states).2.frame_count
          = states.length) := by
  refine ⟨get_action_frame_count, fun infer k states => ?_⟩
  rw [runAgent_frame_count]
  exact Nat.zero_add _

/-- C2 counterexample: constructing with `frame_skip = 0 < 1` does not fail
with any error — `__init__` performs no validation of `frame_skip` — and
produces a fully initialized agent; the failure that does occur with
`frame_skip = 0` happens only later, inside the first decision call, as a
`ZeroDivisionError` from `frame_count % frame_skip`. -/
theorem claim_C2_counterexample :
    PongAgent.init 0 =
      { frame_skip := 0, frame_count := 0, last_action := 1 } ∧
    (get_action (fun _ => Except.ok [0, 1, 0]) (PongAgent.init 0)
        [0, 0, 0, 0, 0]).1 = Except.error PyError.zeroDivision :=
  ⟨rfl, rfl⟩

/-- C2 (amended): construction with an integer `frame_skip < 1` succeeds and
produces an agent instance with the usual initial state (`frame_count = 0`,
`last_action = STAY`); no configuration error is raised at construction.
With `frame_skip = 0` every decision call instead fails with a
division-by-zero error. -/
theorem claim_C2_amended (k : Int) (hk : k < 1) :
    PongAgent.init k =
      { frame_skip := k, frame_count := 0, last_action := 1 } ∧
    (∀ (infer : Backend) (a : AgentState) (st : StateVector),
      a.frame_skip = 0 →
      (get_action infer a st).1 = Except.error PyError.zeroDivision) := by
  refine ⟨rfl, fun infer a st h0 => ?_⟩
  unfold get_action
  dsimp only
  rw [if_pos h0]

/-- Witness for the amended C2 at the concrete skip `-3`. -/
theorem claim_C2_amended_witness :
    (-3 : Int) < 1 ∧
      (PongAgent.init (-3) =
          { frame_skip := -3, frame_count := 0, last_action := 1 } ∧
        (∀ (infer : Backend) (a : AgentState) (st : StateVector),
          a.frame_skip = 0 →
          (get_action infer a st).1 = Except.error PyError.zeroDivision)) :=
  ⟨by decide, claim_C2_amended (-3) (by decide)⟩

/-- C10: the decision loop is deterministic in the agent configuration, the
backend function, and the state sequence: equal tick sequences fed to agents
constructed with the same `frame_skip` and the same backend yield equal
per-tick results and equal final `(frame_count, last_action)` states. -/
theorem claim_C10_deterministic (k : Int) (infer : Backend)
    (states1 states2 : List StateVector) (h : states1 = states2) :
    runAgent infer (PongAgent.init k) states1
      = runAgent infer (PongAgent.init k) states2 := by
  rw [h]

/-- Witness for C10 on a concrete two-tick sequence. -/
theorem claim_C10_witness :
    [[(1 : ℚ), 2, 3, 4, 5], [5, 4, 3, 2, 1]]
        = [[(1 : ℚ), 2, 3, 4, 5], [5, 4, 3, 2, 1]] ∧
      runAgent (fun _ => Except.ok [0, 1, 0]) (PongAgent.init 4)
          [[(1 : ℚ), 2, 3, 4, 5], [5, 4, 3, 2, 1]]
        = runAgent (fun _ => Except.ok [0, 1, 0]) (PongAgent.init 4)
            [[(1 : ℚ), 2, 3, 4, 5], [5, 4, 3, 2, 1]] :=
  ⟨rfl, claim_C10_deterministic 4 (fun _ => Except.ok [0, 1, 0]) _ _ rfl⟩

end FrameSkipPong
